import Mathlib

/-!
# Verification of the bedrock-web-kms client core

Shallow embedding of the repository's source in Lean 4, with theorems
settling the frozen claims about it.

Modelling conventions:
* JavaScript byte arrays (`Uint8Array`) are `List Nat`, with byte bounds
  (`< 256`) as explicit hypotheses where they matter.
* JavaScript strings are `List Nat` of character codes; `jstr` converts a
  Lean string literal to that form.
* Fallible code returns `Option`/`Except`; a caught exception is a `none`
  or `.error` value.
* External collaborators (the remote KMS, `localStorage`, `tweetnacl`'s
  `secretbox`, `crypto-ld`'s Ed25519 fingerprint) are modelled at their
  interface, as the spec directs; repository code is translated
  definition-by-definition from the files under `src/`.
-/

/-- JavaScript string as a list of character codes. -/
abbrev JStr := List Nat

/-- Converts a Lean string literal to a JavaScript string model. -/
def jstr (s : String) : JStr := s.data.map Char.toNat

/-! ## base64url (the `base64url-universal` dependency, modelled at its
interface: unpadded base64url over bytes, as used by `Kek`, `KmsService`
and `SeedCache`) -/

/-- Maps a sextet (0..63) to its base64url alphabet character code. -/
def b64CharOf (s : Nat) : Nat :=
  if s < 26 then 65 + s
  else if s < 52 then 97 + (s - 26)
  else if s < 62 then 48 + (s - 52)
  else if s = 62 then 45
  else 95

/-- Maps a base64url character code back to its sextet, `none` if the
character is not in the alphabet. -/
def b64SextetOf (c : Nat) : Option Nat :=
  if 65 ≤ c ∧ c ≤ 90 then some (c - 65)
  else if 97 ≤ c ∧ c ≤ 122 then some (26 + (c - 97))
  else if 48 ≤ c ∧ c ≤ 57 then some (52 + (c - 48))
  else if c = 45 then some 62
  else if c = 95 then some 63
  else none

/-- Unpadded base64url encoding of a byte list, producing character codes. -/
def b64Encode : List Nat → JStr
  | [] => []
  | [a] => [b64CharOf (a / 4), b64CharOf (a % 4 * 16)]
  | [a, b] =>
      [b64CharOf (a / 4), b64CharOf (a % 4 * 16 + b / 16), b64CharOf (b % 16 * 4)]
  | a :: b :: c :: rest =>
      b64CharOf (a / 4) :: b64CharOf (a % 4 * 16 + b / 16) ::
      b64CharOf (b % 16 * 4 + c / 64) :: b64CharOf (c % 64) :: b64Encode rest

/-- Unpadded base64url decoding of character codes back to bytes; `none`
models the decoder rejecting malformed input. -/
def b64Decode : JStr → Option (List Nat)
  | [] => some []
  | [c1, c2] => do
      let s1 ← b64SextetOf c1
      let s2 ← b64SextetOf c2
      pure [s1 * 4 + s2 / 16]
  | [c1, c2, c3] => do
      let s1 ← b64SextetOf c1
      let s2 ← b64SextetOf c2
      let s3 ← b64SextetOf c3
      pure [s1 * 4 + s2 / 16, s2 % 16 * 16 + s3 / 4]
  | c1 :: c2 :: c3 :: c4 :: rest => do
      let s1 ← b64SextetOf c1
      let s2 ← b64SextetOf c2
      let s3 ← b64SextetOf c3
      let s4 ← b64SextetOf c4
      let tail ← b64Decode rest
      pure ((s1 * 4 + s2 / 16) :: (s2 % 16 * 16 + s3 / 4) :: (s3 % 4 * 64 + s4) :: tail)
  | [_] => none

theorem b64SextetOf_b64CharOf (s : Nat) (hs : s < 64) :
    b64SextetOf (b64CharOf s) = some s := by
  revert hs
  revert s
  decide

theorem b64Decode_b64Encode (l : List Nat) (h : ∀ b ∈ l, b < 256) :
    b64Decode (b64Encode l) = some l := by
  induction l using b64Encode.induct with
  | case1 => rfl
  | case2 a =>
      have ha : a < 256 := h a (by simp)
      simp only [b64Encode, b64Decode,
        b64SextetOf_b64CharOf _ (by omega : a / 4 < 64),
        b64SextetOf_b64CharOf _ (by omega : a % 4 * 16 < 64),
        Option.bind_eq_bind, Option.some_bind, Option.pure_def]
      have : a / 4 * 4 + a % 4 * 16 / 16 = a := by omega
      rw [this]
  | case3 a b =>
      have ha : a < 256 := h a (by simp)
      have hb : b < 256 := h b (by simp)
      simp only [b64Encode, b64Decode,
        b64SextetOf_b64CharOf _ (by omega : a / 4 < 64),
        b64SextetOf_b64CharOf _ (by omega : a % 4 * 16 + b / 16 < 64),
        b64SextetOf_b64CharOf _ (by omega : b % 16 * 4 < 64),
        Option.bind_eq_bind, Option.some_bind, Option.pure_def]
      have h1 : a / 4 * 4 + (a % 4 * 16 + b / 16) / 16 = a := by omega
      have h2 : (a % 4 * 16 + b / 16) % 16 * 16 + b % 16 * 4 / 4 = b := by omega
      rw [h1, h2]
  | case4 a b c rest ih =>
      have ha : a < 256 := h a (by simp)
      have hb : b < 256 := h b (by simp)
      have hc : c < 256 := h c (by simp)
      have hrest : ∀ x ∈ rest, x < 256 := fun x hx => h x (by simp [hx])
      simp only [b64Encode, b64Decode,
        b64SextetOf_b64CharOf _ (by omega : a / 4 < 64),
        b64SextetOf_b64CharOf _ (by omega : a % 4 * 16 + b / 16 < 64),
        b64SextetOf_b64CharOf _ (by omega : b % 16 * 4 + c / 64 < 64),
        b64SextetOf_b64CharOf _ (by omega : c % 64 < 64),
        ih hrest, Option.bind_eq_bind, Option.some_bind, Option.pure_def]
      have h1 : a / 4 * 4 + (a % 4 * 16 + b / 16) / 16 = a := by omega
      have h2 : (a % 4 * 16 + b / 16) % 16 * 16 + (b % 16 * 4 + c / 64) / 4 = b := by
        omega
      have h3 : (b % 16 * 4 + c / 64) % 4 * 64 + c % 64 = c := by omega
      rw [h1, h2, h3]

/-! ## UTF-8 (`TextEncoder` model, used by `_strToUint8Array`) -/

/-- UTF-8 encoding of a single code point. -/
def utf8Char (c : Nat) : List Nat :=
  if c < 128 then [c]
  else if c < 2048 then [192 + c / 64, 128 + c % 64]
  else if c < 65536 then [224 + c / 4096, 128 + c / 64 % 64, 128 + c % 64]
  else [240 + c / 262144, 128 + c / 4096 % 64, 128 + c / 64 % 64, 128 + c % 64]

/-- UTF-8 encoding of a JavaScript string (`new TextEncoder().encode(s)`). -/
def utf8Bytes (s : JStr) : List Nat := (s.map utf8Char).flatten

/-! ## SHA-256 (`crypto.subtle.digest('SHA-256', ...)`), implemented from
the published algorithm so that the seed derivation of
`AccountMasterKey.fromSecret` is embedded at full fidelity. -/

/-- Truncation to a 32-bit word. -/
def w32 (n : Nat) : Nat := n % 4294967296

/-- Right rotation of a 32-bit word. -/
def rotr32 (n x : Nat) : Nat := w32 (x / 2 ^ n + x % 2 ^ n * 2 ^ (32 - n))

/-- Logical right shift of a 32-bit word. -/
def shr32 (n x : Nat) : Nat := x / 2 ^ n

/-- Bitwise complement of a 32-bit word. -/
def notW32 (x : Nat) : Nat := x ^^^ 4294967295

def bsig0 (x : Nat) : Nat := rotr32 2 x ^^^ rotr32 13 x ^^^ rotr32 22 x

def bsig1 (x : Nat) : Nat := rotr32 6 x ^^^ rotr32 11 x ^^^ rotr32 25 x

def ssig0 (x : Nat) : Nat := rotr32 7 x ^^^ rotr32 18 x ^^^ shr32 3 x

def ssig1 (x : Nat) : Nat := rotr32 17 x ^^^ rotr32 19 x ^^^ shr32 10 x

def chW (x y z : Nat) : Nat := (x &&& y) ^^^ (notW32 x &&& z)

def majW (x y z : Nat) : Nat := (x &&& y) ^^^ (x &&& z) ^^^ (y &&& z)

/-- The 64 SHA-256 round constants (FIPS 180-4, written in decimal). -/
def sha256K : List Nat :=
  [1116352408, 1899447441, 3049323471, 3921009573, 961987163, 1508970993,
   2453635748, 2870763221, 3624381080, 310598401, 607225278, 1426881987,
   1925078388, 2162078206, 2614888103, 3248222580, 3835390401, 4022224774,
   264347078, 604807628, 770255983, 1249150122, 1555081692, 1996064986,
   2554220882, 2821834349, 2952996808, 3210313671, 3336571891, 3584528711,
   113926993, 338241895, 666307205, 773529912, 1294757372, 1396182291,
   1695183700, 1986661051, 2177026350, 2456956037, 2730485921, 2820302411,
   3259730800, 3345764771, 3516065817, 3600352804, 4094571909, 275423344,
   430227734, 506948616, 659060556, 883997877, 958139571, 1322822218,
   1537002063, 1747873779, 1955562222, 2024104815, 2227730452, 2361852424,
   2428436474, 2756734187, 3204031479, 3329325298]

/-- The eight working variables of the SHA-256 compression function. -/
structure Sha256State where
  a : Nat
  b : Nat
  c : Nat
  d : Nat
  e : Nat
  f : Nat
  g : Nat
  h : Nat

/-- One SHA-256 round; `kw` is the pair (message-schedule word, constant). -/
def sha256Round (st : Sha256State) (kw : Nat × Nat) : Sha256State :=
  let t1 := w32 (st.h + bsig1 st.e + chW st.e st.f st.g + kw.2 + kw.1)
  let t2 := w32 (bsig0 st.a + majW st.a st.b st.c)
  ⟨w32 (t1 + t2), st.a, st.b, st.c, w32 (st.d + t1), st.e, st.f, st.g⟩

/-- Extends the 16-word message block by `n` further schedule words. -/
def sha256Extend : List Nat → Nat → List Nat
  | ws, 0 => ws
  | ws, n + 1 =>
      sha256Extend
        (ws ++ [w32 (ssig1 (ws.getD (ws.length - 2) 0) + ws.getD (ws.length - 7) 0 +
          ssig0 (ws.getD (ws.length - 15) 0) + ws.getD (ws.length - 16) 0)]) n

/-- SHA-256 compression of one 16-word block into the running hash state. -/
def sha256Compress (st : Sha256State) (block : List Nat) : Sha256State :=
  let ws := sha256Extend block 48
  let fin := (ws.zip sha256K).foldl sha256Round st
  ⟨w32 (st.a + fin.a), w32 (st.b + fin.b), w32 (st.c + fin.c), w32 (st.d + fin.d),
   w32 (st.e + fin.e), w32 (st.f + fin.f), w32 (st.g + fin.g), w32 (st.h + fin.h)⟩

/-- SHA-256 padding: a 0x80 byte, zeros to 56 mod 64, 64-bit big-endian
bit length. -/
def sha256Pad (msg : List Nat) : List Nat :=
  let len := msg.length
  let bits := 8 * len
  msg ++ 128 :: List.replicate ((120 - (len + 1) % 64) % 64) 0 ++
    [bits / 72057594037927936 % 256, bits / 281474976710656 % 256,
     bits / 1099511627776 % 256, bits / 4294967296 % 256,
     bits / 16777216 % 256, bits / 65536 % 256, bits / 256 % 256, bits % 256]

/-- Groups bytes into big-endian 32-bit words. -/
def bytesToWords : List Nat → List Nat
  | a :: b :: c :: d :: rest =>
      (a * 16777216 + b * 65536 + c * 256 + d) :: bytesToWords rest
  | _ => []

/-- Splits a word list into 16-word blocks (the padded input is always a
whole number of blocks, so the ragged case is unreachable). -/
def chunk16 : List Nat → List (List Nat)
  | [] => []
  | w1 :: w2 :: w3 :: w4 :: w5 :: w6 :: w7 :: w8 ::
    w9 :: w10 :: w11 :: w12 :: w13 :: w14 :: w15 :: w16 :: rest =>
      [w1, w2, w3, w4, w5, w6, w7, w8, w9, w10, w11, w12, w13, w14, w15, w16] ::
        chunk16 rest
  | ws => [ws]

/-- SHA-256 initial hash value (FIPS 180-4, written in decimal). -/
def sha256Init : Sha256State :=
  ⟨1779033703, 3144134277, 1013904242, 2773480762,
   1359893119, 2600822924, 528734635, 1541459225⟩

/-- Big-endian bytes of a 32-bit word. -/
def wordBytes (x : Nat) : List Nat :=
  [x / 16777216 % 256, x / 65536 % 256, x / 256 % 256, x % 256]

/-- SHA-256 digest of a byte list. -/
def sha256 (msg : List Nat) : List Nat :=
  let blocks := chunk16 (bytesToWords (sha256Pad msg))
  let s := blocks.foldl sha256Compress sha256Init
  wordBytes s.a ++ wordBytes s.b ++ wordBytes s.c ++ wordBytes s.d ++
  wordBytes s.e ++ wordBytes s.f ++ wordBytes s.g ++ wordBytes s.h

theorem sha256_length (msg : List Nat) : (sha256 msg).length = 32 := by
  simp [sha256, wordBytes]

example :
    sha256 (jstr "abc") =
      [186, 120, 22, 191, 143, 1, 207, 234, 65, 65, 64, 222, 93, 174, 34, 35,
       176, 3, 97, 163, 150, 23, 122, 156, 180, 16, 255, 97, 242, 0, 21, 173] := by
  decide

/-! ## Typed-array writes (`Uint8Array.prototype.set`, used by
`fromSecret` to assemble `prefix ++ secret`) -/

/-- Models `target.set(src, off)`: copies `src` into `target` starting at
offset `off` (writes beyond the end are dropped; the source always stays
in bounds). -/
def u8set : List Nat → Nat → List Nat → List Nat
  | [], _, _ => []
  | _ :: ts, 0, s :: rest => s :: u8set ts 0 rest
  | t, 0, [] => t
  | x :: ts, off + 1, src => x :: u8set ts off src

theorem u8set_eq_take_append (t : List Nat) (off : Nat) (src : List Nat)
    (h : off + src.length ≤ t.length) :
    u8set t off src = t.take off ++ src ++ t.drop (off + src.length) := by
  induction t generalizing off src with
  | nil =>
      simp at h
      obtain ⟨h1, h2⟩ := h
      subst h1
      subst h2
      simp [u8set]
  | cons x ts ih =>
      match off, src with
      | 0, [] => simp [u8set]
      | 0, s :: rest =>
          simp only [List.length_cons] at h
          have hd : (0 : Nat) + (s :: rest).length = rest.length + 1 := by simp
          simp only [u8set, List.take_zero, List.nil_append, List.cons_append, hd,
            List.drop_succ_cons]
          rw [ih 0 rest (by omega)]
          simp
      | off + 1, src =>
          simp only [List.length_cons] at h
          have hd : off + 1 + src.length = (off + src.length) + 1 := by omega
          simp only [u8set, List.take_succ_cons, List.cons_append, hd,
            List.drop_succ_cons]
          rw [ih off src (by omega)]

/-! ## MasterSigner (`_signerFromSeed`): the Ed25519 key pair and its
fingerprint come from the external `crypto-ld` library, modelled at their
interface as a deterministic function of the seed. -/

/-- Models `Ed25519KeyPair.generate({seed})` followed by `fingerprint()`:
a deterministic fingerprint string derived from the seed. -/
def ed25519Fingerprint (seed : List Nat) : JStr := jstr "z" ++ b64Encode seed

/-- The signer id set by `_signerFromSeed`:
`urn:bedrock-web-kms:key:` followed by the key fingerprint. -/
def signerIdFromSeed (seed : List Nat) : JStr :=
  jstr "urn:bedrock-web-kms:key:" ++ ed25519Fingerprint seed

/-- The observable result of constructing an `AccountMasterKey`
(the kmsService/kmsPlugin references are opaque and omitted). -/
structure MasterKey where
  accountId : JStr
  signerId : JStr
  deriving DecidableEq

/-! ## SeedCache (`SeedCache.js`): `localStorage` is modelled as a state
holding one cell under the fixed key `bedrock-web-kms-seed-cache`.
`StoredCell.corrupt` stands for a stored value `JSON.parse` rejects (or a
read that throws); `writeFails` set means `localStorage.setItem` throws
(quota, private mode). -/

inductive StoredCell
  | absent
  | corrupt
  | val (m : List (JStr × JStr))
  deriving DecidableEq

structure Storage where
  available : Bool
  cell : StoredCell
  writeFails : Bool
  deriving DecidableEq

/-- JavaScript object property lookup on the cache mapping. -/
def alGet : List (JStr × JStr) → JStr → Option JStr
  | [], _ => none
  | (k, v) :: rest, key => if k = key then some v else alGet rest key

/-- JavaScript object property assignment on the cache mapping. -/
def alPut : List (JStr × JStr) → JStr → JStr → List (JStr × JStr)
  | [], key, v => [(key, v)]
  | (k, w) :: rest, key, v =>
      if k = key then (k, v) :: rest else (k, w) :: alPut rest key v

/-- JavaScript `delete cache[accountId]`. -/
def alRemove : List (JStr × JStr) → JStr → List (JStr × JStr)
  | [], _ => []
  | (k, w) :: rest, key =>
      if k = key then alRemove rest key else (k, w) :: alRemove rest key

/-- `SeedCache._getCache`: parses the stored mapping, treating a corrupt
value (or a throwing read) as the empty mapping. -/
def scGetCache (st : Storage) : List (JStr × JStr) :=
  match st.cell with
  | .val m => m
  | _ => []

/-- `SeedCache._updateCache`: serializes and stores the mapping, returning
`false` (state unchanged) if `localStorage.setItem` throws. -/
def scUpdateCache (st : Storage) (m : List (JStr × JStr)) : Bool × Storage :=
  if st.writeFails then (false, st) else (true, { st with cell := .val m })

/-- `SeedCache.set`. -/
def seedCacheSet (st : Storage) (accountId : JStr) (seed : List Nat) :
    Bool × Storage :=
  if st.available = false then (false, st)
  else scUpdateCache st (alPut (scGetCache st) accountId (b64Encode seed))

/-- `SeedCache.get`: the empty string is falsy in JavaScript, so an empty
stored entry is skipped; a decoder exception is caught, yielding `null`. -/
def seedCacheGet (st : Storage) (accountId : JStr) : Option (List Nat) :=
  if st.available = false then none
  else
    match alGet (scGetCache st) accountId with
    | some enc => if enc = [] then none else b64Decode enc
    | none => none

/-- `SeedCache.remove`. -/
def seedCacheRemove (st : Storage) (accountId : JStr) : Bool × Storage :=
  if st.available = false then (false, st)
  else scUpdateCache st (alRemove (scGetCache st) accountId)

/-! ## AccountMasterKey (`AccountMasterKey.js`, current class) -/

/-- A JavaScript `secret` argument: a string, a `Uint8Array`, or anything
else (which `fromSecret` rejects with a `TypeError`). -/
inductive SecretInput
  | ofString (s : JStr)
  | ofBytes (b : List Nat)
  | other

/-- The secret normalization at the top of `fromSecret`. -/
def secretToBytes : SecretInput → Option (List Nat)
  | .ofString s => some (utf8Bytes s)
  | .ofBytes b => some b
  | .other => none

/-- The account-scoped hash input prefix of `fromSecret`,
`bedrock-web-kms:${accountId}:` UTF-8 encoded. -/
def amkScopedPrefixBytes (accountId : JStr) : List Nat :=
  utf8Bytes (jstr "bedrock-web-kms:" ++ accountId ++ jstr ":")

/-- The hash input `data` assembled by `fromSecret` with two typed-array
writes into a zero-initialized buffer. -/
def fromSecretData (pfxBytes secretBytes : List Nat) : List Nat :=
  u8set
    (u8set (List.replicate (pfxBytes.length + secretBytes.length) 0) 0 pfxBytes)
    pfxBytes.length secretBytes

/-- The seed computed by `fromSecret`: SHA-256 of the assembled data
(`none` models the `TypeError` on a non-string, non-buffer secret). -/
def fromSecretSeed (secret : SecretInput) (accountId : JStr) :
    Option (List Nat) :=
  match secretToBytes secret with
  | none => none
  | some sb => some (sha256 (fromSecretData (amkScopedPrefixBytes accountId) sb))

/-- `AccountMasterKey.fromSecret`, returning the constructed instance and
the storage state after the optional seed caching. -/
def amkFromSecret (st : Storage) (secret : SecretInput) (accountId : JStr)
    (cache : Bool) : Option (MasterKey × Storage) :=
  match fromSecretSeed secret accountId with
  | none => none
  | some seed =>
      let st' := if cache then (seedCacheSet st accountId seed).2 else st
      some ({ accountId := accountId, signerId := signerIdFromSeed seed }, st')

/-- `AccountMasterKey.fromCache`. -/
def amkFromCache (st : Storage) (accountId : JStr) : Option MasterKey :=
  if st.available = false then none
  else
    match seedCacheGet st accountId with
    | none => none
    | some seed => some { accountId := accountId, signerId := signerIdFromSeed seed }

/-- `AccountMasterKey.clearCache` (the storage state after
`_seedCache.remove`). -/
def amkClearCache (st : Storage) (accountId : JStr) : Storage :=
  (seedCacheRemove st accountId).2

theorem fromSecretData_eq_append (p s : List Nat) :
    fromSecretData p s = p ++ s := by
  have hinner : u8set (List.replicate (p.length + s.length) 0) 0 p
      = p ++ List.replicate s.length 0 := by
    rw [u8set_eq_take_append _ _ _ (by simp)]
    simp [List.drop_replicate]
  unfold fromSecretData
  rw [hinner, u8set_eq_take_append _ _ _ (by simp),
    List.take_left, List.drop_eq_nil_of_le (by simp)]
  simp

/-! ## Errors raised by the embedded methods; each constructor corresponds
to one `throw` site in the source. -/

inductive JsError
  /-- `Unsupported version "${version}"` from `_assertVersion`. -/
  | unsupportedVersion
  /-- `Unknown key type "${type}".` from `generateKey`. -/
  | unknownKeyType
  /-- `"jwe" must be an object.` -/
  | invalidJwe
  /-- `"jwe.protected" is missing or not a string.` -/
  | invalidProtected
  /-- `Invalid or missing "iv".` -/
  | invalidIv
  /-- `Invalid or missing "ciphertext".` -/
  | invalidCiphertext
  /-- `Invalid or missing "tag".` -/
  | invalidTag
  /-- `"jwe.recipients" must be an array.` -/
  | invalidRecipients
  /-- the `TypeError` thrown by destructuring the `undefined` result of
  `jwe.recipients.find(...)` when no recipient header matches `kekId`. -/
  | noMatchingRecipient
  /-- `Invalid or unsupported JWE header.` -/
  | invalidHeader
  /-- `Invalid or missing "encrypted_key".` -/
  | invalidEncryptedKey
  /-- a base64url decoding exception. -/
  | decodeFailure
  deriving DecidableEq

/-! ## Kek / Hmac handles (`Kek.js`, `Hmac.js`) and the KmsService
wrap/unwrap path, with the remote KMS modelled as a stub responder -/

/-- A `Kek` instance: `{id, algorithm: 'A256KW', signer, kmsService}`. -/
structure KekHandle where
  id : JStr
  algorithm : JStr
  signerId : JStr
  deriving DecidableEq

/-- An `Hmac` instance: `{id, algorithm: 'HS256', signer, kmsService}`. -/
structure HmacHandle where
  id : JStr
  algorithm : JStr
  signerId : JStr
  deriving DecidableEq

/-- The `Kek` constructor. -/
def mkKek (id signerId : JStr) : KekHandle := ⟨id, jstr "A256KW", signerId⟩

/-- The `Hmac` constructor. -/
def mkHmac (id signerId : JStr) : HmacHandle := ⟨id, jstr "HS256", signerId⟩

/-- The value `generateKey` resolves to: a `Kek` or an `Hmac` instance. -/
inductive KeyHandle
  | kekH (k : KekHandle)
  | hmacH (h : HmacHandle)
  deriving DecidableEq

/-- `AccountMasterKey.generateKey`; `genId` stands for
`kmsService.generateKey({plugin, type, signer})`, the remote call minting
a key id. -/
def amkGenerateKey (genId : JStr → JStr → JStr) (plugin signerId : JStr)
    (type version : JStr) : Except JsError KeyHandle :=
  if ¬ (version = jstr "recommended" ∨ version = jstr "fips") then
    .error .unsupportedVersion
  else if type = jstr "hmac" then
    .ok (.hmacH (mkHmac (genId plugin (jstr "Sha256HmacKey2019")) signerId))
  else if type = jstr "kek" then
    .ok (.kekH (mkKek (genId plugin (jstr "AesKeyWrappingKey2019")) signerId))
  else .error .unknownKeyType

/-- The remote KMS modelled as a stub responder: `wrapResp kekId u` is the
`wrappedKey` the service returns for a `WrapKeyOperation` carrying
`unwrappedKey = u`, and `unwrapResp kekId w` the `unwrappedKey` returned
for an `UnwrapKeyOperation` carrying `wrappedKey = w`. -/
structure KmsRemote where
  wrapResp : JStr → JStr → JStr
  unwrapResp : JStr → JStr → JStr

/-- `KmsService.wrapKey`: base64url-encodes the key bytes, posts the
operation, returns the service's `wrappedKey`. -/
def kmsWrapKey (remote : KmsRemote) (key : List Nat) (kekId : JStr) : JStr :=
  remote.wrapResp kekId (b64Encode key)

/-- `KmsService.unwrapKey`: posts the operation and base64url-decodes the
service's `unwrappedKey`. -/
def kmsUnwrapKey (remote : KmsRemote) (wrappedKey kekId : JStr) :
    Option (List Nat) :=
  b64Decode (remote.unwrapResp kekId wrappedKey)

/-- The stub of the claims: on unwrap the service returns exactly the
value it received as the wrap result (its unwrap inverts its wrap). -/
def echoRemote : KmsRemote := ⟨fun _ u => u, fun _ w => w⟩

/-- `Kek.wrap`. -/
def kekWrap (remote : KmsRemote) (kek : KekHandle) (key : List Nat) : JStr :=
  kmsWrapKey remote key kek.id

/-- `Kek.unwrap`. -/
def kekUnwrap (remote : KmsRemote) (kek : KekHandle) (wrappedKey : JStr) :
    Option (List Nat) :=
  kmsUnwrapKey remote wrappedKey kek.id

/-! ## The SecretBox cipher (`part_002`, `JWE_ENC = 'XS20P'`). The
`tweetnacl` `secretbox` primitive is external; it is modelled at its
interface: a length-preserving keyed stream plus a 16-byte authenticator,
with `open` returning `null` unless the authenticator verifies. XSalsa20
itself is out of scope; the model keystream and authenticator are simple
executable stand-ins with the same shape. -/

/-- Model keystream byte `i` under key `k` and nonce `n`. -/
def streamByte (k n : List Nat) (i : Nat) : Nat :=
  (k.getD (i % 32) 0 + n.getD (i % 24) 0 + i) % 256

/-- Stream-encrypts bytes starting at position `i`. -/
def sxor (k n : List Nat) : Nat → List Nat → List Nat
  | _, [] => []
  | i, b :: rest => (b + streamByte k n i) % 256 :: sxor k n (i + 1) rest

/-- Stream-decrypts bytes starting at position `i`. -/
def sunxor (k n : List Nat) : Nat → List Nat → List Nat
  | _, [] => []
  | i, b :: rest => (b + 256 - streamByte k n i) % 256 :: sunxor k n (i + 1) rest

/-- Model 16-byte authenticator over the ciphertext. -/
def sbTagBytes (c n k : List Nat) : List Nat :=
  (List.range 16).map fun j =>
    c.foldl (fun acc b => (acc * 31 + b + 7) % 256)
      ((j * 17 + k.getD (j % 32) 0 + n.getD (j % 24) 0) % 256)

/-- Models `secretbox(m, n, k)`: ciphertext with the 16-byte authenticator
attached. -/
def secretboxSeal (m n k : List Nat) : List Nat :=
  let c := sxor k n 0 m
  c ++ sbTagBytes c n k

/-- Models `secretbox.open(box, n, k)`: `null` (here `none`) unless the
authenticator verifies. -/
def secretboxOpen (box n k : List Nat) : Option (List Nat) :=
  if box.length < 16 then none
  else
    let c := box.take (box.length - 16)
    let t := box.drop (box.length - 16)
    if sbTagBytes c n k = t then some (sunxor k n 0 c) else none

/-- `encrypt` of the SecretBox cipher: seals with a fresh nonce (`iv`,
passed explicitly here) and splits off the trailing 16 bytes as the tag.
The `additionalData` parameter is accepted but never used — `secretbox`
has no additional-authenticated-data input. -/
def sbCipherEncrypt (data _additionalData cek iv : List Nat) :
    List Nat × List Nat :=
  let encrypted := secretboxSeal data iv cek
  (encrypted.take (encrypted.length - 16), encrypted.drop (encrypted.length - 16))

/-- `decrypt` of the SecretBox cipher: re-joins ciphertext and tag and
returns `secretbox.open`'s result directly (so `null` on authentication
failure); `additionalData` is again unused. -/
def sbCipherDecrypt (ciphertext iv tagB _additionalData cek : List Nat) :
    Option (List Nat) :=
  secretboxOpen (ciphertext ++ tagB) iv cek

/-! ## The fips cipher. Modelled from the spec: `fipsCipher.js` is not
under `src/`; per the spec it is an AEAD (AES-256-GCM, `enc` "A256GCM")
over a 256-bit key whose tag authenticates ciphertext and additionalData. -/

/-- Modelled from the spec: AES-GCM 16-byte tag over additionalData and
ciphertext (executable stand-in with the AEAD shape). -/
def fipsTagBytes (c aad n k : List Nat) : List Nat :=
  (List.range 16).map fun j =>
    (aad ++ c).foldl (fun acc b => (acc * 37 + b + 11) % 256)
      ((j * 23 + k.getD (j % 32) 0 + n.getD (j % 12) 0) % 256)

/-- Modelled from the spec: `encrypt` of the fips cipher. -/
def fipsCipherEncrypt (data additionalData cek iv : List Nat) :
    List Nat × List Nat :=
  (sxor cek iv 0 data, fipsTagBytes (sxor cek iv 0 data) additionalData iv cek)

/-- Modelled from the spec: `decrypt` of the fips cipher; `none` models
the AEAD rejecting a tag that does not verify. -/
def fipsCipherDecrypt (ciphertext iv tagB additionalData cek : List Nat) :
    Option (List Nat) :=
  if fipsTagBytes ciphertext additionalData iv cek = tagB then
    some (sunxor cek iv 0 ciphertext)
  else none

/-! ## JWE envelopes and the legacy `AccountMasterKey.encrypt` /
`decrypt` / `decryptObject` (first class in `part_000`).

The transcription of that class carries evident damage which the
embedding repairs to the surrounding intent without touching any semantic
content: the stray parenthesis in the `jwe.protected` check, the
`const kekId` redeclaration before the unwrap call (the unwrap uses the
matched header's `kid`, as that line assigns), and the `ciphertext`,
`iv`, `tag` identifiers passed to `cipher.decrypt` resolve to the
base64url-decoded envelope fields that `encrypt` emits. The `enc` value
`encrypt` places in the protected header and recipient header is the
cipher module's published content-algorithm identifier (`JWE_ENC`, i.e.
`XS20P` for the SecretBox cipher, `A256GCM` for the fips profile). All
constants, the validation order, the accepted `enc` set and the
null-on-authentication-failure behaviour are exactly as in the source. -/

/-- A JavaScript value in a string-typed envelope position: `undefined`,
some non-string value, or a string. -/
inductive JField
  | undef
  | nonStr
  | str (s : JStr)
  deriving DecidableEq

/-- A recipient header `{alg, enc, kid}`. -/
structure JHeader where
  alg : JField
  enc : JField
  kid : JField
  deriving DecidableEq

/-- A recipient entry `{header, encrypted_key}`. -/
structure JRecipient where
  header : Option JHeader
  encryptedKey : JField
  deriving DecidableEq

/-- The `recipients` envelope position: `undefined`, a non-array value,
or an array of recipients. -/
inductive JRecipients
  | undef
  | nonArr
  | arr (rs : List JRecipient)
  deriving DecidableEq

/-- A JWE envelope as `decrypt` receives it. -/
structure Jwe where
  protectedHeader : JField
  recipients : JRecipients
  iv : JField
  ciphertext : JField
  tag : JField
  deriving DecidableEq

/-- The recipient-matching predicate
`e => e.header && e.header.kid === kekId`; a `kekId` of `none` models the
JavaScript `undefined` (strict equality holds between two `undefined`s but
never between a string and `undefined`). -/
def kidMatches (kekId : Option JStr) (r : JRecipient) : Bool :=
  match r.header with
  | none => false
  | some h =>
      match h.kid, kekId with
      | .str s, some k => s == k
      | .undef, none => true
      | _, _ => false

/-- Legacy `AccountMasterKey.decrypt`. -/
def amkDecrypt (remote : KmsRemote) (jweOpt : Option Jwe)
    (kekId : Option JStr) : Except JsError (Option (List Nat)) :=
  match jweOpt with
  | none => .error .invalidJwe
  | some jwe =>
    match jwe.protectedHeader with
    | .str prot =>
      match jwe.iv with
      | .str ivS =>
        match jwe.ciphertext with
        | .str ctS =>
          match jwe.tag with
          | .str tagS =>
            match jwe.recipients with
            | .arr rs =>
              match rs.find? (fun r => kidMatches kekId r) with
              | none => .error .noMatchingRecipient
              | some rcpt =>
                match rcpt.header with
                | none => .error .invalidHeader
                | some h =>
                  match h.kid, h.alg, h.enc with
                  | .str kidS, .str algS, .str encS =>
                    if algS == jstr "A256KW" &&
                        (encS == jstr "A256GCM" || encS == jstr "C20P") then
                      match rcpt.encryptedKey with
                      | .str wk =>
                        match kmsUnwrapKey remote wk kidS with
                        | none => .error .decodeFailure
                        | some cek =>
                          match b64Decode ctS, b64Decode ivS, b64Decode tagS with
                          | some ct, some iv0, some tg =>
                            let additionalData := utf8Bytes prot
                            if encS == jstr "A256GCM" then
                              .ok (fipsCipherDecrypt ct iv0 tg additionalData cek)
                            else
                              .ok (sbCipherDecrypt ct iv0 tg additionalData cek)
                          | _, _, _ => .error .decodeFailure
                      | _ => .error .invalidEncryptedKey
                    else .error .invalidHeader
                  | _, _, _ => .error .invalidHeader
            | _ => .error .invalidRecipients
          | _ => .error .invalidTag
        | _ => .error .invalidCiphertext
      | _ => .error .invalidIv
    | _ => .error .invalidProtected

/-- The content-algorithm identifier published by the cipher module
selected for `version` (`JWE_ENC`). -/
def cipherEncOf (version : JStr) : JStr :=
  if version = jstr "fips" then jstr "A256GCM" else jstr "XS20P"

/-- `JSON.stringify({enc})`. -/
def jsonEncHeader (enc : JStr) : JStr :=
  jstr "\x7b\"enc\":\"" ++ enc ++ jstr "\"\x7d"

/-- Legacy `AccountMasterKey.encrypt`. The fresh content-encryption key
(`cipher.generateKey()`) and fresh nonce are random at run time and are
passed here as explicit entropy arguments. -/
def amkEncrypt (remote : KmsRemote) (data : List Nat) (kekId : JStr)
    (wrappedCek : Option JStr) (version : JStr) (freshCek freshIv : List Nat) :
    Except JsError Jwe :=
  if ¬ (version = jstr "recommended" ∨ version = jstr "fips") then
    .error .unsupportedVersion
  else
    let cekRes : Except JsError (List Nat × JStr) :=
      match wrappedCek with
      | some w =>
          match kmsUnwrapKey remote w kekId with
          | none => .error .decodeFailure
          | some cek => .ok (cek, w)
      | none => .ok (freshCek, kmsWrapKey remote freshCek kekId)
    match cekRes with
    | .error e => .error e
    | .ok (cek, wrapped) =>
      let enc := cipherEncOf version
      let prot := b64Encode (utf8Bytes (jsonEncHeader enc))
      let additionalData := utf8Bytes prot
      let ctTag :=
        if version = jstr "fips" then
          fipsCipherEncrypt data additionalData cek freshIv
        else
          sbCipherEncrypt data additionalData cek freshIv
      .ok {
        protectedHeader := .str prot,
        recipients := .arr [{
          header := some {
            alg := .str (jstr "A256KW"),
            enc := .str enc,
            kid := .str kekId },
          encryptedKey := .str wrapped }],
        iv := .str (b64Encode freshIv),
        ciphertext := .str (b64Encode ctTag.1),
        tag := .str (b64Encode ctTag.2) }

/-- Legacy `AccountMasterKey.decryptObject`: the source calls
`this.decrypt({jwe})`, so the received `kekId` is never forwarded and the
inner decrypt runs with `kekId = undefined` (`none`). `parse` abstracts
`JSON.parse` composed with `TextDecoder.decode`. -/
def amkDecryptObject (remote : KmsRemote) (parse : List Nat → Option (List Nat))
    (jweOpt : Option Jwe) (_kekId : Option JStr) :
    Except JsError (Option (List Nat)) :=
  match amkDecrypt remote jweOpt none with
  | .error e => .error e
  | .ok d => .ok (d.bind parse)

/-- Follows the spec (§4.2): the first invalid envelope field in the
fixed order protected, iv, ciphertext, tag, recipients,
matching-recipient-header; `none` when validation passes. Written from
the spec's words, to be compared with `amkDecrypt`. -/
def specFirstError (jweOpt : Option Jwe) (kekId : Option JStr) :
    Option JsError :=
  match jweOpt with
  | none => some .invalidJwe
  | some jwe =>
    match jwe.protectedHeader with
    | .str _ =>
      match jwe.iv with
      | .str _ =>
        match jwe.ciphertext with
        | .str _ =>
          match jwe.tag with
          | .str _ =>
            match jwe.recipients with
            | .arr rs =>
              match rs.find? (fun r => kidMatches kekId r) with
              | none => some .noMatchingRecipient
              | some rcpt =>
                match rcpt.header with
                | none => some .invalidHeader
                | some h =>
                  match h.kid, h.alg, h.enc with
                  | .str _, .str algS, .str encS =>
                    if algS == jstr "A256KW" &&
                        (encS == jstr "A256GCM" || encS == jstr "C20P") then
                      match rcpt.encryptedKey with
                      | .str _ => none
                      | _ => some .invalidEncryptedKey
                    else some .invalidHeader
                  | _, _, _ => some .invalidHeader
            | _ => some .invalidRecipients
          | _ => some .invalidTag
        | _ => some .invalidCiphertext
      | _ => some .invalidIv
    | _ => some .invalidProtected

/-! ## Cipher lemmas -/

theorem sunxor_sxor (k n m : List Nat) (i : Nat) (h : ∀ b ∈ m, b < 256) :
    sunxor k n i (sxor k n i m) = m := by
  induction m generalizing i with
  | nil => rfl
  | cons b rest ih =>
      have hb : b < 256 := h b (by simp)
      have hs : streamByte k n i < 256 := Nat.mod_lt _ (by omega)
      simp only [sxor, sunxor, ih (i + 1) (fun x hx => h x (by simp [hx]))]
      congr 1
      omega

theorem sbTagBytes_length (c n k : List Nat) : (sbTagBytes c n k).length = 16 := by
  simp [sbTagBytes]

theorem secretboxOpen_append (c t n k : List Nat) (ht : t.length = 16) :
    secretboxOpen (c ++ t) n k =
      if sbTagBytes c n k = t then some (sunxor k n 0 c) else none := by
  simp only [secretboxOpen]
  have h1 : (c ++ t).length = c.length + 16 := by simp [ht]
  rw [h1, if_neg (by omega)]
  have h2 : c.length + 16 - 16 = c.length := by omega
  rw [h2, List.take_left, List.drop_left]

theorem secretboxOpen_secretboxSeal (m n k : List Nat)
    (h : ∀ b ∈ m, b < 256) :
    secretboxOpen (secretboxSeal m n k) n k = some m := by
  unfold secretboxSeal
  rw [secretboxOpen_append _ _ _ _ (sbTagBytes_length _ _ _)]
  rw [if_pos rfl, sunxor_sxor k n m 0 h]

theorem sbCipherEncrypt_join (data aad cek iv : List Nat) :
    (sbCipherEncrypt data aad cek iv).1 ++ (sbCipherEncrypt data aad cek iv).2
      = secretboxSeal data iv cek := by
  simp [sbCipherEncrypt, List.take_append_drop]

theorem amkDecrypt_c20p_eq (k prot : JStr) (cek iv ct tg : List Nat)
    (hcek : ∀ b ∈ cek, b < 256) (hiv : ∀ b ∈ iv, b < 256)
    (hct : ∀ b ∈ ct, b < 256) (htg : ∀ b ∈ tg, b < 256) :
    amkDecrypt echoRemote (some {
      protectedHeader := .str prot,
      recipients := .arr [{
        header := some {
          alg := .str (jstr "A256KW"), enc := .str (jstr "C20P"),
          kid := .str k },
        encryptedKey := .str (b64Encode cek) }],
      iv := .str (b64Encode iv),
      ciphertext := .str (b64Encode ct),
      tag := .str (b64Encode tg) }) (some k)
    = .ok (sbCipherDecrypt ct iv tg (utf8Bytes prot) cek) := by
  have hfind : List.find? (fun r => kidMatches (some k) r)
      [(⟨some ⟨.str (jstr "A256KW"), .str (jstr "C20P"), .str k⟩,
          .str (b64Encode cek)⟩ : JRecipient)]
      = some (⟨some ⟨.str (jstr "A256KW"), .str (jstr "C20P"), .str k⟩,
          .str (b64Encode cek)⟩ : JRecipient) := by
    simp [List.find?, kidMatches]
  simp only [amkDecrypt, hfind]
  rw [if_pos (by decide)]
  simp only [kmsUnwrapKey, echoRemote]
  rw [b64Decode_b64Encode cek hcek, b64Decode_b64Encode ct hct,
    b64Decode_b64Encode iv hiv, b64Decode_b64Encode tg htg]
  have hC : (jstr "C20P" == jstr "A256GCM") = false := by decide
  simp [hC]

theorem alGet_alRemove (m : List (JStr × JStr)) (key : JStr) :
    alGet (alRemove m key) key = none := by
  induction m with
  | nil => rfl
  | cons kv rest ih =>
      obtain ⟨k, v⟩ := kv
      by_cases hk : k = key
      · simp [alRemove, hk, ih]
      · simp [alRemove, alGet, hk, ih]

/-! ## Claim theorems -/

/-- C3: `fromSecret` computes the seed as the 32-byte SHA-256 hash of the
UTF-8 prefix `bedrock-web-kms:<accountId>:` concatenated with the secret
bytes (for both byte-buffer and string secrets), and two calls with the
same secret and accountId produce the same seed and the same MasterSigner
identifier. -/
theorem c3_fromSecret_seed_deterministic (accountId s : JStr) (sb : List Nat)
    (st st' : Storage) (cache cache' : Bool) :
    fromSecretSeed (.ofBytes sb) accountId
        = some (sha256 (amkScopedPrefixBytes accountId ++ sb)) ∧
    fromSecretSeed (.ofString s) accountId
        = some (sha256 (amkScopedPrefixBytes accountId ++ utf8Bytes s)) ∧
    (sha256 (amkScopedPrefixBytes accountId ++ sb)).length = 32 ∧
    (amkFromSecret st (.ofBytes sb) accountId cache).map Prod.fst
      = some (⟨accountId,
          signerIdFromSeed (sha256 (amkScopedPrefixBytes accountId ++ sb))⟩ :
            MasterKey) ∧
    (amkFromSecret st (.ofBytes sb) accountId cache).map Prod.fst
      = (amkFromSecret st' (.ofBytes sb) accountId cache').map Prod.fst := by
  refine ⟨?_, ?_, sha256_length _, ?_, ?_⟩
  · simp [fromSecretSeed, secretToBytes, fromSecretData_eq_append]
  · simp [fromSecretSeed, secretToBytes, fromSecretData_eq_append]
  · simp [amkFromSecret, fromSecretSeed, secretToBytes, fromSecretData_eq_append]
  · simp [amkFromSecret, fromSecretSeed, secretToBytes, fromSecretData_eq_append]

/-- C5: `generateKey` rejects any unrecognized version first (regardless
of type), rejects any type outside hmac/kek for a recognized version, and
otherwise returns an Hmac or Kek handle wrapping the id minted by the KMS
service. -/
theorem c5_generateKey_dispatch (genId : JStr → JStr → JStr)
    (plugin signerId type version : JStr) :
    (version ≠ jstr "recommended" → version ≠ jstr "fips" →
      amkGenerateKey genId plugin signerId type version
        = .error .unsupportedVersion) ∧
    ((version = jstr "recommended" ∨ version = jstr "fips") →
      type ≠ jstr "hmac" → type ≠ jstr "kek" →
      amkGenerateKey genId plugin signerId type version
        = .error .unknownKeyType) ∧
    ((version = jstr "recommended" ∨ version = jstr "fips") →
      amkGenerateKey genId plugin signerId (jstr "hmac") version
        = .ok (.hmacH (mkHmac (genId plugin (jstr "Sha256HmacKey2019"))
            signerId))) ∧
    ((version = jstr "recommended" ∨ version = jstr "fips") →
      amkGenerateKey genId plugin signerId (jstr "kek") version
        = .ok (.kekH (mkKek (genId plugin (jstr "AesKeyWrappingKey2019"))
            signerId))) := by
  refine ⟨fun h1 h2 => ?_, fun hv h1 h2 => ?_, fun hv => ?_, fun hv => ?_⟩
  · simp [amkGenerateKey, h1, h2]
  · rcases hv with hv | hv <;> subst hv <;> simp [amkGenerateKey, h1, h2]
  · rcases hv with hv | hv <;> subst hv <;> simp [amkGenerateKey]
  · rcases hv with hv | hv <;> subst hv <;> simp [amkGenerateKey, jstr]

/-- C5 witness: concrete rejections and constructions. -/
theorem c5_generateKey_dispatch_witness :
    amkGenerateKey (fun _ _ => jstr "kid-1") (jstr "p") (jstr "s")
        (jstr "hmac") (jstr "bogus") = .error .unsupportedVersion ∧
    amkGenerateKey (fun _ _ => jstr "kid-1") (jstr "p") (jstr "s")
        (jstr "rsa") (jstr "recommended") = .error .unknownKeyType ∧
    amkGenerateKey (fun _ _ => jstr "kid-1") (jstr "p") (jstr "s")
        (jstr "hmac") (jstr "recommended")
        = .ok (.hmacH (mkHmac (jstr "kid-1") (jstr "s"))) ∧
    amkGenerateKey (fun _ _ => jstr "kid-1") (jstr "p") (jstr "s")
        (jstr "kek") (jstr "fips")
        = .ok (.kekH (mkKek (jstr "kid-1") (jstr "s"))) :=
  ⟨(c5_generateKey_dispatch (fun _ _ => jstr "kid-1") (jstr "p") (jstr "s")
      (jstr "hmac") (jstr "bogus")).1 (by decide) (by decide),
   (c5_generateKey_dispatch (fun _ _ => jstr "kid-1") (jstr "p") (jstr "s")
      (jstr "rsa") (jstr "recommended")).2.1 (Or.inl rfl) (by decide) (by decide),
   (c5_generateKey_dispatch (fun _ _ => jstr "kid-1") (jstr "p") (jstr "s")
      (jstr "x") (jstr "recommended")).2.2.1 (Or.inl rfl),
   (c5_generateKey_dispatch (fun _ _ => jstr "kid-1") (jstr "p") (jstr "s")
      (jstr "x") (jstr "fips")).2.2.2 (Or.inr rfl)⟩

/-- C7: through the KeyHandle/KmsService contract, with the remote KMS
stubbed so that its unwrap returns the value received at wrap,
`Kek.unwrap (Kek.wrap K)` recovers exactly the key bytes `K`: the
client-side base64url encoding and decoding compose to the identity. -/
theorem c7_kek_wrap_unwrap_roundtrip (kek : KekHandle) (key : List Nat)
    (h : ∀ b ∈ key, b < 256) :
    kekUnwrap echoRemote kek (kekWrap echoRemote kek key) = some key := by
  simp [kekWrap, kekUnwrap, kmsWrapKey, kmsUnwrapKey, echoRemote,
    b64Decode_b64Encode key h]

/-- C7 witness at concrete key bytes. -/
theorem c7_kek_wrap_unwrap_roundtrip_witness :
    kekUnwrap echoRemote (mkKek (jstr "kek-1") (jstr "s"))
      (kekWrap echoRemote (mkKek (jstr "kek-1") (jstr "s")) [0, 1, 127, 255])
      = some [0, 1, 127, 255] :=
  c7_kek_wrap_unwrap_roundtrip (mkKek (jstr "kek-1") (jstr "s"))
    [0, 1, 127, 255] (by decide)

/-- C8: SeedCache operations never surface an exception (they are total,
returning `Bool`/`Option`); with no persistence substrate `set`/`remove`
return false and `get` returns null, with a throwing write `set`/`remove`
return false, and a corrupt stored mapping reads as null and is treated
as an empty mapping by `set`. -/
theorem c8_seedCache_best_effort (st : Storage) (accountId : JStr)
    (seed : List Nat) :
    (st.available = false →
      seedCacheSet st accountId seed = (false, st) ∧
      seedCacheGet st accountId = none ∧
      seedCacheRemove st accountId = (false, st)) ∧
    (st.available = true → st.writeFails = true →
      seedCacheSet st accountId seed = (false, st) ∧
      seedCacheRemove st accountId = (false, st)) ∧
    (st.available = true → st.cell = .corrupt →
      seedCacheGet st accountId = none ∧
      (st.writeFails = false →
        seedCacheSet st accountId seed
          = (true, { st with cell := .val [(accountId, b64Encode seed)] }))) := by
  refine ⟨fun h => ?_, fun ha hw => ?_, fun ha hc => ⟨?_, fun hw => ?_⟩⟩
  · simp [seedCacheSet, seedCacheGet, seedCacheRemove, h]
  · simp [seedCacheSet, seedCacheRemove, scUpdateCache, ha, hw]
  · simp [seedCacheGet, scGetCache, ha, hc, alGet]
  · simp [seedCacheSet, scUpdateCache, scGetCache, ha, hc, hw, alPut]

/-- C8 witness: the three failure modes at concrete states. -/
theorem c8_seedCache_best_effort_witness :
    (seedCacheSet ⟨false, .absent, false⟩ (jstr "a") [1]
        = (false, ⟨false, .absent, false⟩) ∧
      seedCacheGet ⟨false, .absent, false⟩ (jstr "a") = none ∧
      seedCacheRemove ⟨false, .absent, false⟩ (jstr "a")
        = (false, ⟨false, .absent, false⟩)) ∧
    (seedCacheSet ⟨true, .val [], true⟩ (jstr "a") [1]
        = (false, ⟨true, .val [], true⟩) ∧
      seedCacheRemove ⟨true, .val [], true⟩ (jstr "a")
        = (false, ⟨true, .val [], true⟩)) ∧
    (seedCacheGet ⟨true, .corrupt, false⟩ (jstr "a") = none ∧
      seedCacheSet ⟨true, .corrupt, false⟩ (jstr "a") [1]
        = (true, ⟨true, .val [(jstr "a", b64Encode [1])], false⟩)) :=
  ⟨(c8_seedCache_best_effort ⟨false, .absent, false⟩ (jstr "a") [1]).1 rfl,
   (c8_seedCache_best_effort ⟨true, .val [], true⟩ (jstr "a") [1]).2.1 rfl rfl,
   (c8_seedCache_best_effort ⟨true, .corrupt, false⟩ (jstr "a") [1]).2.2 rfl rfl |>.1,
   (c8_seedCache_best_effort ⟨true, .corrupt, false⟩ (jstr "a") [1]).2.2 rfl rfl |>.2 rfl⟩

/-- C6 counterexample: with a seed cached for `acct-1` and a persistence
substrate whose write throws, `clearCache` leaves the seed in place
(`_updateCache` returns false) and the subsequent `fromCache` returns a
master key, not null. -/
theorem c6_clearCache_counterexample :
    amkFromCache
      (amkClearCache
        ⟨true, .val [(jstr "acct-1", b64Encode (List.replicate 32 7))], true⟩
        (jstr "acct-1"))
      (jstr "acct-1") ≠ none := by decide

/-- C6 amended: after `clearCache(accountId)`, `fromCache(accountId)`
returns null, provided the persistence substrate is absent or the storage
write does not throw. -/
theorem c6_amended_clearCache_fromCache (st : Storage) (accountId : JStr)
    (h : st.writeFails = false ∨ st.available = false) :
    amkFromCache (amkClearCache st accountId) accountId = none := by
  rcases h with h | h
  · by_cases ha : st.available = false
    · simp [amkClearCache, seedCacheRemove, ha, amkFromCache]
    · have ha' : st.available = true := by
        revert ha
        cases st.available <;> simp
      simp [amkClearCache, seedCacheRemove, scUpdateCache, ha', h,
        amkFromCache, seedCacheGet, scGetCache, alGet_alRemove]
  · simp [amkClearCache, seedCacheRemove, h, amkFromCache]

/-- C6 amended witness: a cached seed with a working write is cleared. -/
theorem c6_amended_clearCache_fromCache_witness :
    amkFromCache
      (amkClearCache
        ⟨true, .val [(jstr "acct-1", b64Encode (List.replicate 32 7))], false⟩
        (jstr "acct-1"))
      (jstr "acct-1") = none :=
  c6_amended_clearCache_fromCache
    ⟨true, .val [(jstr "acct-1", b64Encode (List.replicate 32 7))], false⟩
    (jstr "acct-1") (Or.inl rfl)

/-- C4 counterexample: with the SecretBox ('recommended') profile,
decrypting under a different additionalData than the one supplied at
encryption still returns the plaintext — the protected header is not
bound into the ciphertext for this profile. -/
theorem c4_aad_counterexample :
    sbCipherDecrypt
      (sbCipherEncrypt [1, 2, 3] (jstr "aad-one") (List.replicate 32 1)
        (List.replicate 24 2)).1
      (List.replicate 24 2)
      (sbCipherEncrypt [1, 2, 3] (jstr "aad-one") (List.replicate 32 1)
        (List.replicate 24 2)).2
      (jstr "aad-two") (List.replicate 32 1)
      = some [1, 2, 3] := by decide

/-- C4 amended: the protected header is base64url-JSON-encoded and passed
to the cipher as additionalData, but the SecretBox profile ignores that
parameter (`secretbox` has no AAD input): decryption under any
additionalData, equal or different, returns the plaintext. -/
theorem c4_amended_secretbox_ignores_aad (data aad aad2 cek iv : List Nat)
    (h : ∀ b ∈ data, b < 256) :
    sbCipherDecrypt (sbCipherEncrypt data aad cek iv).1 iv
      (sbCipherEncrypt data aad cek iv).2 aad2 cek = some data := by
  unfold sbCipherDecrypt
  rw [sbCipherEncrypt_join, secretboxOpen_secretboxSeal data iv cek h]

/-- C4 amended witness at concrete inputs. -/
theorem c4_amended_secretbox_ignores_aad_witness :
    sbCipherDecrypt
      (sbCipherEncrypt [10, 20] (jstr "p1") [3, 4] [5]).1 [5]
      (sbCipherEncrypt [10, 20] (jstr "p1") [3, 4] [5]).2
      (jstr "p2") [3, 4] = some [10, 20] :=
  c4_amended_secretbox_ignores_aad [10, 20] (jstr "p1") (jstr "p2") [3, 4] [5]
    (by decide)

/-- C1 (the claim fails on the code): the round-trip breaks. With the
'recommended' profile, `encrypt` emits the SecretBox cipher's published
content algorithm `XS20P` in the recipient header, but `decrypt` accepts
only `A256GCM` or `C20P` there, so decrypting the envelope `encrypt` just
produced throws `Invalid or unsupported JWE header.` instead of returning
the plaintext — both with a fresh CEK and with a pre-supplied wrapped
CEK. -/
theorem c1_roundtrip_fails_enc_mismatch :
    ((amkEncrypt echoRemote [1, 2, 3] (jstr "kek-1") none
        (jstr "recommended") (List.replicate 32 5) (List.replicate 24 9)).bind
      fun jwe => amkDecrypt echoRemote (some jwe) (some (jstr "kek-1")))
      = .error .invalidHeader ∧
    ((amkEncrypt echoRemote [1, 2, 3] (jstr "kek-1")
        (some (b64Encode (List.replicate 32 5))) (jstr "recommended")
        (List.replicate 32 0) (List.replicate 24 9)).bind
      fun jwe => amkDecrypt echoRemote (some jwe) (some (jstr "kek-1")))
      = .error .invalidHeader :=
  ⟨rfl, rfl⟩

/-- A concrete well-formed envelope for exercising `decryptObject`: its
single recipient has kid `kek-1`, enc `C20P`, and its body is `hi`
encrypted under the SecretBox profile with the wrapped CEK stored via the
echo stub. -/
def c9Jwe : Jwe :=
  { protectedHeader := .str (b64Encode (utf8Bytes (jsonEncHeader (jstr "C20P")))),
    recipients := .arr [{
      header := some {
        alg := .str (jstr "A256KW"), enc := .str (jstr "C20P"),
        kid := .str (jstr "kek-1") },
      encryptedKey := .str (b64Encode (List.replicate 32 1)) }],
    iv := .str (b64Encode (List.replicate 24 2)),
    ciphertext := .str (b64Encode
      (sbCipherEncrypt (jstr "hi") [] (List.replicate 32 1)
        (List.replicate 24 2)).1),
    tag := .str (b64Encode
      (sbCipherEncrypt (jstr "hi") [] (List.replicate 32 1)
        (List.replicate 24 2)).2) }

/-- C9 (the claim fails on the code): `decryptObject` calls
`this.decrypt({jwe})` without forwarding `kekId`, so the inner decrypt
runs with `kekId = undefined`, finds no matching recipient and throws —
for any JSON parser — while `decrypt` called with the very same `kekId`
succeeds on the same envelope. -/
theorem c9_decryptObject_drops_kekId :
    (∀ parse : List Nat → Option (List Nat),
      amkDecryptObject echoRemote parse (some c9Jwe) (some (jstr "kek-1"))
        = .error .noMatchingRecipient) ∧
    amkDecrypt echoRemote (some c9Jwe) (some (jstr "kek-1"))
      = .ok (some (jstr "hi")) := by
  constructor
  · intro parse
    have hdec : amkDecrypt echoRemote (some c9Jwe) none
        = .error .noMatchingRecipient := rfl
    simp [amkDecryptObject, hdec]
  · rfl

/-- C10: when the ciphertext/tag pair of a well-formed envelope does not
authenticate under the unwrapped CEK and iv, the SecretBox cipher's
decrypt resolves to null rather than raising, and
`AccountMasterKey.decrypt` returns that null to its caller. -/
theorem c10_tampered_envelope_null (k prot : JStr) (cek iv ct tg aad : List Nat)
    (hcek : ∀ b ∈ cek, b < 256) (hiv : ∀ b ∈ iv, b < 256)
    (hct : ∀ b ∈ ct, b < 256) (htg : ∀ b ∈ tg, b < 256)
    (hfail : secretboxOpen (ct ++ tg) iv cek = none) :
    sbCipherDecrypt ct iv tg aad cek = none ∧
    amkDecrypt echoRemote (some {
      protectedHeader := .str prot,
      recipients := .arr [{
        header := some {
          alg := .str (jstr "A256KW"), enc := .str (jstr "C20P"),
          kid := .str k },
        encryptedKey := .str (b64Encode cek) }],
      iv := .str (b64Encode iv),
      ciphertext := .str (b64Encode ct),
      tag := .str (b64Encode tg) }) (some k) = .ok none := by
  constructor
  · simpa [sbCipherDecrypt] using hfail
  · rw [amkDecrypt_c20p_eq k prot cek iv ct tg hcek hiv hct htg]
    simpa [sbCipherDecrypt] using hfail

/-- C10 witness: a concrete forged tag yields null, not an exception. -/
theorem c10_tampered_envelope_null_witness :
    sbCipherDecrypt [1, 2, 3] (List.replicate 24 2) (List.replicate 16 0) []
      (List.replicate 32 1) = none ∧
    amkDecrypt echoRemote (some {
      protectedHeader := .str (jstr "x"),
      recipients := .arr [{
        header := some {
          alg := .str (jstr "A256KW"), enc := .str (jstr "C20P"),
          kid := .str (jstr "kek-1") },
        encryptedKey := .str (b64Encode (List.replicate 32 1)) }],
      iv := .str (b64Encode (List.replicate 24 2)),
      ciphertext := .str (b64Encode [1, 2, 3]),
      tag := .str (b64Encode (List.replicate 16 0)) })
      (some (jstr "kek-1")) = .ok none :=
  c10_tampered_envelope_null (jstr "kek-1") (jstr "x") (List.replicate 32 1)
    (List.replicate 24 2) [1, 2, 3] (List.replicate 16 0) []
    (by decide) (by decide) (by decide) (by decide) (by decide)

/-- C2: `decrypt` fails with the error of the first invalid envelope field
in the fixed order protected, iv, ciphertext, tag, recipients,
matching-recipient-header: whenever the spec-side `specFirstError` names a
first failure, `decrypt` throws exactly that error, for any remote. In
particular an envelope missing both protected and iv reports the
protected failure, and one missing only tag reports tag (see the
witness). -/
theorem c2_decrypt_validation_order (remote : KmsRemote) (jweOpt : Option Jwe)
    (kekId : Option JStr) (e : JsError)
    (h : specFirstError jweOpt kekId = some e) :
    amkDecrypt remote jweOpt kekId = .error e := by
  cases jweOpt with
  | none =>
      simp only [specFirstError, Option.some.injEq] at h
      subst h
      rfl
  | some jwe =>
    obtain ⟨pf, rf, ivf, ctf, tf⟩ := jwe
    cases pf <;> cases ivf <;> cases ctf <;> cases tf <;>
      try (simp only [specFirstError, Option.some.injEq] at h; subst h; rfl)
    cases rf with
    | undef =>
        simp only [specFirstError, Option.some.injEq] at h
        subst h
        rfl
    | nonArr =>
        simp only [specFirstError, Option.some.injEq] at h
        subst h
        rfl
    | arr rs =>
      cases hf : rs.find? (fun r => kidMatches kekId r) with
      | none =>
          simp only [specFirstError, hf, Option.some.injEq] at h
          subst h
          simp only [amkDecrypt, hf]
      | some rcpt =>
          obtain ⟨rhdr, rek⟩ := rcpt
          cases rhdr with
          | none =>
              simp only [specFirstError, hf, Option.some.injEq] at h
              subst h
              simp only [amkDecrypt, hf]
          | some hdr =>
              obtain ⟨af, ef, kf⟩ := hdr
              cases kf <;> cases af <;> cases ef <;>
                try (simp only [specFirstError, hf, Option.some.injEq] at h; subst h; simp only [amkDecrypt, hf])
              rename_i kidS algS encS
              by_cases hcond : (algS == jstr "A256KW" &&
                  (encS == jstr "A256GCM" || encS == jstr "C20P")) = true
              · cases rek with
                | str wk =>
                    simp only [specFirstError, hf] at h
                    rw [if_pos hcond] at h
                    exact Option.noConfusion h
                | undef =>
                    simp only [specFirstError, hf] at h
                    rw [if_pos hcond] at h
                    injection h with h
                    subst h
                    simp only [amkDecrypt, hf]
                    rw [if_pos hcond]
                | nonStr =>
                    simp only [specFirstError, hf] at h
                    rw [if_pos hcond] at h
                    injection h with h
                    subst h
                    simp only [amkDecrypt, hf]
                    rw [if_pos hcond]
              · simp only [specFirstError, hf] at h
                rw [if_neg hcond] at h
                injection h with h
                subst h
                simp only [amkDecrypt, hf]
                rw [if_neg hcond]

/-- C2 witness: a JWE missing both protected and iv reports the protected
failure; a JWE missing only tag reports the tag failure. -/
theorem c2_decrypt_validation_order_witness :
    amkDecrypt echoRemote
      (some ⟨.undef, .arr [], .undef, .str (jstr "c"), .str (jstr "t")⟩)
      (some (jstr "kek-1")) = .error .invalidProtected ∧
    amkDecrypt echoRemote
      (some ⟨.str (jstr "p"), .arr [], .str (jstr "i"), .str (jstr "c"), .undef⟩)
      (some (jstr "kek-1")) = .error .invalidTag :=
  ⟨c2_decrypt_validation_order echoRemote
      (some ⟨.undef, .arr [], .undef, .str (jstr "c"), .str (jstr "t")⟩)
      (some (jstr "kek-1")) .invalidProtected (by decide),
   c2_decrypt_validation_order echoRemote
      (some ⟨.str (jstr "p"), .arr [], .str (jstr "i"), .str (jstr "c"), .undef⟩)
      (some (jstr "kek-1")) .invalidTag (by decide)⟩
